import Mathlib

/-! # optimint: seed bootstrap of the P2P client and the block store

A shallow embedding of `p2p/client.go` and `store/blockstore.go`.

* Go strings are Lean `String`s (valid UTF-8 text).  `strings.Split` with the
  one-byte separator `","` splits on the character `','`; a byte `0x2C` never
  occurs inside a multi-byte UTF-8 sequence, so splitting characters and
  splitting bytes agree.
* A Go `error` is `Option GoError`, `none` being `nil`.
* The collaborators of the client are explicit: the logger is a recording
  logger (the `MockLogger` of `client_test.go`), the host is a recording host
  that remembers every `Connect` call, and the libraries `go-multiaddr`,
  `go-libp2p-core/peer` and `go-libp2p` are the fields of a `Lib` record, so
  every theorem holds for every behaviour of these libraries unless a
  hypothesis says otherwise.
* A nil-pointer panic is the outer `none` of an `Option` result.
* The per-attempt timeout context and its deferred `cancel` are not state of
  the client; a timeout is one of the errors `Connect` can return.  The mutex
  of the block store is left out: calls are taken one at a time.
-/

set_option autoImplicit false

/-! ## Go runtime: errors and the `strings` package -/

/-- Go error values that occur in the two packages.  `ErrNoPrivKey` is the
sentinel error variable of the `p2p` package, kept as a distinct constant;
`lib msg` is an error produced by a library, with its `Error()` text;
`multi` is the combined error of `multierr.Append`. -/
inductive GoError where
  | ErrNoPrivKey
  | lib (msg : String)
  | multi (msgs : List String)
  deriving DecidableEq, Repr

/-- Go's `error` interface: `none` is `nil`. -/
abbrev error := Option GoError

/-- The `Error()` text of an error value, as printed into a log entry. -/
def GoError.Error : GoError → String
  | .ErrNoPrivKey => "ErrNoPrivKey"
  | .lib msg => msg
  | .multi msgs => "; ".intercalate msgs

/-- Go's builtin `len` on a string: the number of bytes. -/
def len (s : String) : Nat := s.utf8ByteSize

namespace strings

/-- Splitting a character list at every occurrence of `sep`; the result always
has one more element than there are separators. -/
def splitChars (sep : Char) : List Char → List (List Char)
  | [] => [[]]
  | c :: cs =>
    if c = sep then [] :: splitChars sep cs
    else
      match splitChars sep cs with
      | [] => [[c]]
      | seg :: rest => (c :: seg) :: rest

/-- Go's `strings.Split(s, sep)` for a separator of one character:
all substrings of `s` between occurrences of `sep`, in order
(`Split("", ",")` is `[""]`). -/
def Split (s : String) (sep : Char) : List String :=
  (splitChars sep s.data).map String.mk

/-- Go's `unicode.IsSpace`: the code points with the Unicode White_Space
property. -/
def isSpace (c : Char) : Bool :=
  let n := c.toNat
  n == 0x09 || n == 0x0A || n == 0x0B || n == 0x0C || n == 0x0D || n == 0x20 ||
  n == 0x85 || n == 0xA0 || n == 0x1680 || (0x2000 ≤ n && n ≤ 0x200A) ||
  n == 0x2028 || n == 0x2029 || n == 0x202F || n == 0x205F || n == 0x3000

/-- Go's `strings.TrimSpace`: `s` without its leading and trailing white
space. -/
def TrimSpace (s : String) : String :=
  String.mk ((s.data.dropWhile isSpace).reverse.dropWhile isSpace).reverse

end strings

namespace multierr

/-- The underlying errors of an error value, as `multierr` flattens them. -/
def errors : GoError → List String
  | .multi msgs => msgs
  | e => [e.Error]

/-- `multierr.Append(left, right)`: nil if both are nil, the non-nil one if
one is nil, the combination otherwise. -/
def Append (left right : error) : error :=
  match left, right with
  | none, r => r
  | some l, none => some l
  | some l, some r => some (GoError.multi (errors l ++ errors r))

end multierr

/-! ## Package `p2p` -/

namespace p2p

/-- The type `config.P2PConfig`, with the two fields the client reads. -/
structure P2PConfig where
  ListenAddress : String
  Seeds : String
  deriving DecidableEq, Repr

/-- One call of a logger method: the message and the rendered key/value
arguments that follow it. -/
structure LogEntry where
  msg : String
  keyvals : List String
  deriving DecidableEq, Repr

/-- The recording logger of `client_test.go`: one list of entries per
severity, in call order. -/
structure MockLogger where
  debug : List LogEntry
  info : List LogEntry
  err : List LogEntry
  deriving DecidableEq, Repr

/-- The call `logger.Debug(msg, keyvals...)`. -/
def MockLogger.Debug (l : MockLogger) (msg : String) (keyvals : List String) : MockLogger :=
  { l with debug := l.debug ++ [⟨msg, keyvals⟩] }

/-- The call `logger.Info(msg, keyvals...)`. -/
def MockLogger.Info (l : MockLogger) (msg : String) (keyvals : List String) : MockLogger :=
  { l with info := l.info ++ [⟨msg, keyvals⟩] }

/-- The call `logger.Error(msg, keyvals...)`. -/
def MockLogger.Error (l : MockLogger) (msg : String) (keyvals : List String) : MockLogger :=
  { l with err := l.err ++ [⟨msg, keyvals⟩] }

/-- The libraries the client calls.  `M` is `multiaddr.Multiaddr`, `A` is
`peer.AddrInfo`, `H` is the state of a libp2p host and `K` is
`crypto.PrivKey`.  A failing call returns the text of its error. -/
structure Lib (M A H K : Type) where
  /-- `multiaddr.NewMultiaddr(s)` -/
  NewMultiaddr : String → Except String M
  /-- `maddr.String()` -/
  MaddrString : M → String
  /-- `peer.AddrInfoFromP2pAddr(maddr)` -/
  AddrInfoFromP2pAddr : M → Except String A
  /-- `libp2p.New(ctx, libp2p.ListenAddrs(maddr), libp2p.Identity(privKey))` -/
  New : M → Option K → Except String H
  /-- `host.Addrs()` -/
  Addrs : H → List M
  /-- `host.ID()` -/
  ID : H → String
  /-- `host.Connect(ctx, addrInfo)` under its three-second timeout: the new
  state of the host and the error, if the attempt was refused or timed out. -/
  Connect : H → A → H × Option String

/-- A running host together with the record of the `Connect` calls made on
it, oldest first. -/
structure Host (A H : Type) where
  st : H
  connects : List A
  deriving DecidableEq, Repr

/-- The call `host.Connect(ctx, addrInfo)` on the recording host. -/
def Host.Connect {M A H K : Type} (lib : Lib M A H K) (h : Host A H) (addrInfo : A) :
    Host A H × error :=
  let r := lib.Connect h.st addrInfo
  (⟨r.1, h.connects ++ [addrInfo]⟩, r.2.map GoError.lib)

/-- The struct `Client`.  `privKey` and `host` are interface values and can be
nil. -/
structure Client (A H K : Type) where
  conf : P2PConfig
  privKey : Option K
  host : Option (Host A H)
  logger : MockLogger
  deriving DecidableEq, Repr

/-- The default listen address `NewClient` fills in. -/
def defaultListenAddress : String := "/ip4/127.0.0.1/tcp/7676"

/-- `NewClient`: the pair `(*Client, error)`. -/
def NewClient {A H K : Type} (conf : P2PConfig) (privKey : Option K) (logger : MockLogger) :
    Option (Client A H K) × error :=
  match privKey with
  | none => (none, some GoError.ErrNoPrivKey)
  | some k =>
    let conf := if conf.ListenAddress = "" then
      { conf with ListenAddress := defaultListenAddress } else conf
    (some { conf := conf, privKey := some k, host := none, logger := logger }, none)

/-- `Client.listen`: the client afterwards and the returned error. -/
def listen {M A H K : Type} (lib : Lib M A H K) (c : Client A H K) : Client A H K × error :=
  match lib.NewMultiaddr c.conf.ListenAddress with
  | .error err => (c, some (GoError.lib err))
  | .ok maddr =>
    match lib.New maddr c.privKey with
    | .error err => (c, some (GoError.lib err))
    | .ok host =>
      let logger := (lib.Addrs host).foldl
        (fun l a => l.Info "listening on" ["address", lib.MaddrString a, "ID", lib.ID host])
        c.logger
      ({ c with logger := logger, host := some ⟨host, []⟩ }, none)

/-- One iteration of the loop of `Client.bootstrap` on the segment `s`.
`none` is the nil-pointer panic of `c.host.Connect` on a client without
host. -/
def bootstrapStep {M A H K : Type} (lib : Lib M A H K) (c : Client A H K) (s : String) :
    Option (Client A H K) :=
  match lib.NewMultiaddr s with
  | .error err =>
    some { c with logger := c.logger.Error "error while parsing seed node"
                              ["address", s, "error", err] }
  | .ok maddr =>
    let c := { c with logger := c.logger.Debug "seed" ["addr", lib.MaddrString maddr] }
    match lib.AddrInfoFromP2pAddr maddr with
    | .error err =>
      some { c with logger := c.logger.Error "error while creating address info"
                                ["error", err] }
    | .ok addrInfo =>
      match c.host with
      | none => none
      | some h =>
        match h.Connect lib addrInfo with
        | (h, some err) =>
          some { c with host := some h,
                        logger := c.logger.Error "error while connecting to seed node"
                                    ["error", err.Error] }
        | (h, none) =>
          some { c with host := some h,
                        logger := c.logger.Debug "connected to seed node" ["address", s] }

/-- `Client.bootstrap`: the client afterwards and the returned error, or
`none` for a panic. -/
def bootstrap {M A H K : Type} (lib : Lib M A H K) (c : Client A H K) :
    Option (Client A H K × error) :=
  if len (strings.TrimSpace c.conf.Seeds) = 0 then
    some ({ c with logger := c.logger.Info "no seed nodes - only listening for connections" [] },
          none)
  else
    let seeds := strings.Split c.conf.Seeds ','
    match seeds.foldlM (bootstrapStep lib) c with
    | none => none
    | some c => some (c, none)

/-- `Client.Start`: the client afterwards and the returned error, or `none`
for a panic. -/
def Start {M A H K : Type} (lib : Lib M A H K) (c : Client A H K) :
    Option (Client A H K × error) :=
  let c := { c with logger := c.logger.Debug "Starting P2P client" [] }
  match listen lib c with
  | (c, some err) => some (c, some err)
  | (c, none) =>
    match bootstrap lib c with
    | none => none
    | some (c, some err) => some (c, some err)
    | some (c, none) => some (c, none)

end p2p

/-! ## Vocabulary of the statements about the client -/

namespace p2p

/-- What the loop of `bootstrap` makes of one segment before it connects: the
peer address, or `none` when the segment does not parse as a multiaddress or
carries no peer identifier. -/
def resolveSeg {M A H K : Type} (lib : Lib M A H K) (s : String) : Option A :=
  match lib.NewMultiaddr s with
  | .error _ => none
  | .ok maddr =>
    match lib.AddrInfoFromP2pAddr maddr with
    | .error _ => none
    | .ok addrInfo => some addrInfo

/-- The guard at the head of `bootstrap`: the seed string is empty or white
space only. -/
def blank (seeds : String) : Prop := len (strings.TrimSpace seeds) = 0

instance (seeds : String) : Decidable (blank seeds) := by unfold blank; infer_instance

/-- The errors logged by the parsing part of the loop: every error entry that
is not the report of a failed connection. -/
def parseErrors (l : MockLogger) : List LogEntry :=
  l.err.filter fun e => e.msg != "error while connecting to seed node"

/-- The `Connect` calls recorded on the client's host (none without host). -/
def dialed {A H K : Type} (c : Client A H K) : List A :=
  match c.host with
  | none => []
  | some h => h.connects

/-- The client with its seed string replaced. -/
def withSeeds {A H K : Type} (c : Client A H K) (seeds : String) : Client A H K :=
  { c with conf := { c.conf with Seeds := seeds } }

/-- The `Connect` calls `bootstrap` makes for the seed string `seeds`, on a
client whose host has no recorded call yet; `none` if `bootstrap` panics. -/
def dialedBy {M A H K : Type} (lib : Lib M A H K) (c : Client A H K) (seeds : String) :
    Option (List A) :=
  (bootstrap lib (withSeeds c seeds)).map fun r => dialed r.1

/-- The error entry the loop of `bootstrap` logs for an empty segment when
`NewMultiaddr("")` fails with the error text `err`. -/
def emptySegmentError (err : String) : LogEntry :=
  ⟨"error while parsing seed node", ["address", "", "error", err]⟩

/-- The number of segments that resolve to no peer address. -/
def invalidCount {M A H K : Type} (lib : Lib M A H K) (segs : List String) : Nat :=
  segs.countP fun s => (resolveSeg lib s).isNone

/-- The peer addresses `bootstrap` resolves from a seed string: none when the
guard finds the string blank, otherwise those of the segments that resolve,
in order. -/
def resolveSeeds {M A H K : Type} (lib : Lib M A H K) (seeds : String) : List A :=
  if blank seeds then [] else (strings.Split seeds ',').filterMap (resolveSeg lib)

/-- What the loop of `bootstrap` over the segments `segs` turns the client `c`
into: configuration, key and info log are kept, the host records one
`Connect` call per segment that resolves, in order, and the parsing part logs
one error per segment that does not resolve. -/
structure LoopSpec {M A H K : Type} (lib : Lib M A H K) (segs : List String)
    (c c' : Client A H K) : Prop where
  conf : c'.conf = c.conf
  privKey : c'.privKey = c.privKey
  hostSome : c'.host.isSome = true
  dialed : dialed c' = dialed c ++ segs.filterMap (resolveSeg lib)
  info : c'.logger.info = c.logger.info
  parseErrs : (parseErrors c'.logger).length
    = (parseErrors c.logger).length + invalidCount lib segs
  errs : (∀ h a, (lib.Connect h a).2 = none) →
    c'.logger.err.length = c.logger.err.length + invalidCount lib segs

end p2p

/-! ## Package `store` -/

/-- A byte slice; every element is below 256. -/
abbrev Bytes := List Nat

namespace store

/-- `binary.LittleEndian.PutUint64` into a fresh 8-byte slice. -/
def PutUint64 (v : Nat) : Bytes :=
  (List.range 8).map fun i => (v / 256 ^ i) % 256

/-- `var h [32]byte; copy(h[:], hash)`: the first 32 bytes of `hash`, padded
with zeros. -/
def copy32 (hash : Bytes) : Bytes :=
  (hash.take 32) ++ List.replicate (32 - (hash.take 32).length) 0

/-- The key prefix of block entries. -/
def blockPreffix : Bytes := [1]

/-- The key prefix of index entries. -/
def indexPreffix : Bytes := [2]

/-- The interface `KVStore`, over the state `DB` of the store. -/
structure KVStore (DB : Type) where
  /-- `db.Get(key)` -/
  Get : DB → Bytes → Bytes × error
  /-- `db.Set(key, value)`: the store afterwards and the error. -/
  Set : DB → Bytes → Bytes → DB × error

/-- The types `types.Block` (`B`) and `types.Header` (`Hd`) with the two
library encodings the store uses: `gob` for blocks and headers, and
`sha3.Sum256`.  `Height` is the `uint64` field `Header.Height`; the store
only compares and encodes heights. -/
structure Codec (B Hd : Type) where
  /-- `block.Header` -/
  Header : B → Hd
  /-- `header.Height` -/
  Height : Hd → Nat
  /-- `gob.NewEncoder(&buf).Encode(block)` -/
  EncodeBlock : B → Except String Bytes
  /-- `gob.NewEncoder(&buf).Encode(block.Header)` -/
  EncodeHeader : Hd → Except String Bytes
  /-- `gob.NewDecoder(r).Decode(&block)` -/
  DecodeBlock : Bytes → Except String B
  /-- `sha3.Sum256` -/
  Sum256 : Bytes → Bytes

/-- The struct `DefaultBlockStore` (without its mutex). -/
structure DefaultBlockStore (DB : Type) where
  db : DB
  height : Nat

/-- `Height()` -/
def Height {DB : Type} (bs : DefaultBlockStore DB) : Nat := bs.height

/-- `getHash(block)`: the hash and the error. -/
def getHash {B Hd : Type} (codec : Codec B Hd) (block : B) : Bytes × error :=
  match codec.EncodeHeader (codec.Header block) with
  | .error err => (List.replicate 32 0, some (GoError.lib err))
  | .ok header => (codec.Sum256 header, none)

/-- `SaveBlock(block)`: the store afterwards and the returned error. -/
def SaveBlock {DB B Hd : Type} (kv : KVStore DB) (codec : Codec B Hd)
    (bs : DefaultBlockStore DB) (block : B) : DefaultBlockStore DB × error :=
  match getHash codec block with
  | (_, some err) => (bs, some err)
  | (hash, none) =>
    let key := blockPreffix ++ hash
    let height := PutUint64 (codec.Height (codec.Header block))
    let ikey := indexPreffix ++ height
    match codec.EncodeBlock block with
    | .error err => (bs, some (GoError.lib err))
    | .ok value =>
      let r₁ := kv.Set bs.db key value
      let err := multierr.Append none r₁.2
      let r₂ := kv.Set r₁.1 ikey hash
      let err := multierr.Append err r₂.2
      let bs := { bs with db := r₂.1 }
      let bs := if codec.Height (codec.Header block) > bs.height then
        { bs with height := codec.Height (codec.Header block) } else bs
      (bs, err)

/-- `LoadBlockByHash(hash)`: the block and the error. -/
def LoadBlockByHash {DB B Hd : Type} (kv : KVStore DB) (codec : Codec B Hd)
    (bs : DefaultBlockStore DB) (hash : Bytes) : Option B × error :=
  let key := blockPreffix ++ hash
  match kv.Get bs.db key with
  | (_, some err) => (none, some err)
  | (blockData, none) =>
    match codec.DecodeBlock blockData with
    | .error err => (none, some (GoError.lib err))
    | .ok block => (some block, none)

/-- `LoadBlock(height)`: the block and the error. -/
def LoadBlock {DB B Hd : Type} (kv : KVStore DB) (codec : Codec B Hd)
    (bs : DefaultBlockStore DB) (height : Nat) : Option B × error :=
  let buf := PutUint64 height
  let ikey := indexPreffix ++ buf
  match kv.Get bs.db ikey with
  | (_, some err) => (none, some err)
  | (hash, none) => LoadBlockByHash kv codec bs (copy32 hash)

/-- Modelled from the spec: the state of the in-memory key-value store behind
`NewInMemoryKVStore` (the KV-backed store of the block storage): the entries
set so far, newest first. -/
abbrev MemDB := List (Bytes × Bytes)

/-- Modelled from the spec: `Get` and `Set` of the in-memory key-value store:
`Set` never fails, `Get` returns the value last set for the key and an error
for a key never set. -/
def memKV : KVStore MemDB where
  Get := fun db key =>
    match db.lookup key with
    | some v => (v, none)
    | none => ([], some (GoError.lib "key not found"))
  Set := fun db key value => ((key, value) :: db, none)

/-- A block for the examples: a header that is the height, and a list of
transaction bytes. -/
abbrev ToyBlock := Nat × Bytes

/-- An encoding for the examples, standing in for `gob` and `sha3`: a block is
encoded as its height followed by its bytes, and the stand-in hash is 32
bytes long like `sha3.Sum256`. -/
def toyCodec : Codec ToyBlock Nat where
  Header := fun b => b.1
  Height := fun h => h
  EncodeBlock := fun b => .ok (b.1 :: b.2)
  EncodeHeader := fun h => .ok [h]
  DecodeBlock := fun bytes =>
    match bytes with
    | [] => .error "EOF"
    | h :: txs => .ok (h, txs)
  Sum256 := fun bytes => List.replicate 31 0 ++ [bytes.sum % 256]

end store

/-! ## A reference instance of the libraries

The theorems below hold for every `Lib`.  To evaluate the client on concrete
seed strings, `golib.lib` instantiates the record after the textual
multiaddress format of `go-multiaddr`, restricted to the protocols `ip4`,
`tcp` and `p2p` that occur in the repository's tests, and with a host whose
connection attempts fail exactly for a given set of peers. -/

namespace golib

/-- One component of a multiaddress: protocol name and value. -/
abbrev Component := String × String

/-- A parsed multiaddress: its components in order. -/
abbrev Multiaddr := List Component

/-- The struct `peer.AddrInfo`. -/
structure AddrInfo where
  ID : String
  Addrs : List Multiaddr
  deriving DecidableEq, Repr

/-- Decimal digits to a number, `none` on an empty or non-decimal text. -/
def parseDecimal (cs : List Char) : Option Nat :=
  if cs = [] then none
  else cs.foldl (fun acc c => acc.bind fun n =>
    if c.isDigit then some (10 * n + (c.toNat - 48)) else none) (some 0)

/-- The value check of the `ip4` protocol: four decimal octets. -/
def validIP4 (v : List Char) : Bool :=
  let parts := strings.splitChars '.' v
  parts.length == 4 && parts.all fun part =>
    match parseDecimal part with
    | some n => n ≤ 255
    | none => false

/-- The value check of the `tcp` protocol: a 16-bit port. -/
def validPort (v : List Char) : Bool :=
  match parseDecimal v with
  | some n => n ≤ 65535
  | none => false

/-- The alphabet of base58btc. -/
def base58Alphabet : List Char :=
  "123456789ABCDEFGHJKLMNPQRSTUVWXYZabcdefghijkmnopqrstuvwxyz".data

/-- The value check of the `p2p` protocol, reduced to its syntactic part: a
non-empty base58btc text. -/
def validPeerID (v : List Char) : Bool :=
  v ≠ [] && v.all fun c => c ∈ base58Alphabet

/-- The value check of a protocol, `none` for an unknown protocol name. -/
def validValue (name : List Char) : Option (List Char → Bool) :=
  if name = "ip4".data then some validIP4
  else if name = "tcp".data then some validPort
  else if name = "p2p".data then some validPeerID
  else none

/-- The loop of the string parser over the parts between slashes: a protocol
name followed by its value, repeatedly. -/
def parseComponents : List (List Char) → Except String Multiaddr
  | [] => .ok []
  | [name] =>
    match validValue name with
    | none => .error ("unknown protocol " ++ String.mk name)
    | some _ => .error "unexpected end of multiaddr"
  | name :: value :: rest =>
    match validValue name with
    | none => .error ("unknown protocol " ++ String.mk name)
    | some ok =>
      if ok value then
        match parseComponents rest with
        | .ok m => .ok ((String.mk name, String.mk value) :: m)
        | .error err => .error err
      else .error ("invalid value for protocol " ++ String.mk name)

/-- Removal of trailing slashes, `strings.TrimRight(s, "/")`. -/
def trimRightSlash (cs : List Char) : List Char :=
  (cs.reverse.dropWhile (fun c => c == '/')).reverse

/-- The string parser of multiaddresses: trailing slashes are dropped, the
text must begin with a slash and must name at least one protocol. -/
def NewMultiaddr (s : String) : Except String Multiaddr :=
  match strings.splitChars '/' (trimRightSlash s.data) with
  | [] => .error "empty multiaddr"
  | first :: sp =>
    if first ≠ [] then .error "must begin with /"
    else if sp = [] then .error "empty multiaddr"
    else parseComponents sp

/-- The text of a multiaddress. -/
def MaddrString (m : Multiaddr) : String :=
  String.join (m.map fun c => "/" ++ c.1 ++ "/" ++ c.2)

/-- The address info of a multiaddress that ends in a `p2p` component: the
peer identifier and the transport address before it. -/
def AddrInfoFromP2pAddr (m : Multiaddr) : Except String AddrInfo :=
  match m.reverse with
  | [] => .error "invalid p2p multiaddr"
  | last :: transport =>
    if last.1 = "p2p" then
      .ok ⟨last.2, if transport = [] then [] else [transport.reverse]⟩
    else .error "invalid p2p multiaddr"

/-- The reference libraries: the host state is the list of connected peers,
and a connection attempt fails exactly for the peers listed in `down`. -/
def lib (down : List String) : p2p.Lib Multiaddr AddrInfo (List String) Unit where
  NewMultiaddr := NewMultiaddr
  MaddrString := MaddrString
  AddrInfoFromP2pAddr := AddrInfoFromP2pAddr
  New := fun _ _ => .ok []
  Addrs := fun _ => []
  ID := fun _ => "self"
  Connect := fun h a =>
    if a.ID ∈ down then (h, some "connection refused") else (h ++ [a.ID], none)

/-- The first seed of `TestSeedStringParsing`. -/
def seed1 : String :=
  "/ip4/127.0.0.1/tcp/7676/p2p/12D3KooWM1NFkZozoatQi3JvFE57eBaX56mNgBA68Lk5MTPxBE4U"

/-- The second seed of `TestSeedStringParsing`. -/
def seed2 : String :=
  "/ip4/127.0.0.1/tcp/7677/p2p/12D3KooWAPRFbmWF5dAXvxLnEDxiHWhUuApVDpNNZwShiFAiJqrj"

/-- The third seed of `TestSeedStringParsing`: a multiaddress without peer
identifier. -/
def seed3 : String := "/ip4/127.0.0.1/tcp/12345"

/-- The address info of `seed1`. -/
def seed1AI : AddrInfo :=
  ⟨"12D3KooWM1NFkZozoatQi3JvFE57eBaX56mNgBA68Lk5MTPxBE4U",
   [[("ip4", "127.0.0.1"), ("tcp", "7676")]]⟩

/-- The address info of `seed2`. -/
def seed2AI : AddrInfo :=
  ⟨"12D3KooWAPRFbmWF5dAXvxLnEDxiHWhUuApVDpNNZwShiFAiJqrj",
   [[("ip4", "127.0.0.1"), ("tcp", "7677")]]⟩

/-- A client with a fresh running host and an empty log. -/
def client (seeds : String) : p2p.Client AddrInfo (List String) Unit :=
  { conf := ⟨p2p.defaultListenAddress, seeds⟩, privKey := some (),
    host := some ⟨[], []⟩, logger := ⟨[], [], []⟩ }

/-- The input "invalid id, two correct" of `TestSeedStringParsing`. -/
def seeds312 : String := seed3 ++ "," ++ seed1 ++ "," ++ seed2

/-- A seed string with a leading and a trailing delimiter around one seed. -/
def seedsAround : String := "," ++ seed1 ++ ","

end golib

/-! # Theorems -/

/-! ## Lemmas on `strings` -/

namespace strings

theorem splitChars_ne_nil (sep : Char) (cs : List Char) : splitChars sep cs ≠ [] := by
  induction cs with
  | nil => simp [splitChars]
  | cons c cs ih =>
    unfold splitChars
    split
    · simp
    · split <;> simp

theorem splitChars_append_sep (sep : Char) (a b : List Char) :
    splitChars sep (a ++ sep :: b) = splitChars sep a ++ splitChars sep b := by
  induction a with
  | nil => simp [splitChars]
  | cons c cs ih =>
    by_cases hc : c = sep
    · simp [splitChars, hc, ih]
    · have hne := splitChars_ne_nil sep cs
      cases hs : splitChars sep cs with
      | nil => exact absurd hs hne
      | cons seg rest =>
        simp only [List.cons_append, splitChars, hc, if_false, List.append_eq]
        rw [ih, hs]
        simp

theorem splitChars_of_not_mem (sep : Char) (a : List Char) (h : sep ∉ a) :
    splitChars sep a = [a] := by
  induction a with
  | nil => simp [splitChars]
  | cons c cs ih =>
    have hc : c ≠ sep := fun e => h (by simp [e])
    have hcs : sep ∉ cs := fun e => h (by simp [e])
    simp [splitChars, hc, ih hcs]

theorem Split_append_sep (a b : String) (sep : Char) :
    Split (a ++ String.singleton sep ++ b) sep = Split a sep ++ Split b sep := by
  simp [Split, String.singleton, splitChars_append_sep]

theorem Split_of_not_mem (a : String) (sep : Char) (h : sep ∉ a.data) :
    Split a sep = [a] := by
  simp [Split, splitChars_of_not_mem sep a.data h]

theorem len_eq_zero_iff (s : String) : len s = 0 ↔ s.data = [] := by
  obtain ⟨l⟩ := s
  cases l with
  | nil => simp [len, String.utf8ByteSize, String.utf8ByteSize.go]
  | cons c cs =>
    have := Char.utf8Size_pos c
    simp [len, String.utf8ByteSize, String.utf8ByteSize.go]
    omega

end strings

namespace strings

theorem all_of_all_dropWhile (p : Char → Bool) (l : List Char)
    (h : ∀ x ∈ l.dropWhile p, p x = true) : ∀ x ∈ l, p x = true := by
  induction l with
  | nil => simp
  | cons a l ih =>
    by_cases ha : p a = true
    · simp only [List.dropWhile_cons, ha, if_true] at h
      intro x hx
      rcases List.mem_cons.1 hx with rfl | hx
      · exact ha
      · exact ih h x hx
    · simp only [List.dropWhile_cons, ha] at h
      exact h

theorem TrimSpace_data_eq_nil_iff (s : String) :
    (TrimSpace s).data = [] ↔ ∀ c ∈ s.data, isSpace c = true := by
  simp only [TrimSpace, List.reverse_eq_nil_iff, List.dropWhile_eq_nil_iff, List.mem_reverse]
  constructor
  · exact all_of_all_dropWhile isSpace s.data
  · intro h x hx
    exact h x ((List.dropWhile_sublist isSpace).subset hx)

end strings

namespace p2p

theorem blank_iff (seeds : String) : blank seeds ↔ ∀ c ∈ seeds.data, strings.isSpace c = true := by
  unfold blank
  rw [strings.len_eq_zero_iff, strings.TrimSpace_data_eq_nil_iff]

theorem not_blank_of_mem (seeds : String) (c : Char) (hc : c ∈ seeds.data)
    (hs : strings.isSpace c = false) : ¬ blank seeds := by
  intro hb
  have := (blank_iff seeds).1 hb c hc
  simp [hs] at this

theorem not_blank_append_comma (a b : String) : ¬ blank (a ++ "," ++ b) :=
  not_blank_of_mem _ ',' (by simp) (by decide)

theorem comma_not_mem_of_blank (seeds : String) (hb : blank seeds) : ',' ∉ seeds.data := by
  intro hc
  exact not_blank_of_mem seeds ',' hc (by decide) hb

end p2p

/-! ## The loop of `bootstrap` -/

namespace p2p

theorem LoopSpec.nil {M A H K : Type} (lib : Lib M A H K) (c : Client A H K)
    (hh : c.host.isSome = true) : LoopSpec lib [] c c := by
  constructor <;> simp [hh, invalidCount]

theorem LoopSpec.append {M A H K : Type} {lib : Lib M A H K} {s₁ s₂ : List String}
    {c₁ c₂ c₃ : Client A H K} (h₁ : LoopSpec lib s₁ c₁ c₂) (h₂ : LoopSpec lib s₂ c₂ c₃) :
    LoopSpec lib (s₁ ++ s₂) c₁ c₃ where
  conf := h₂.conf.trans h₁.conf
  privKey := h₂.privKey.trans h₁.privKey
  hostSome := h₂.hostSome
  dialed := by rw [h₂.dialed, h₁.dialed, List.filterMap_append, List.append_assoc]
  info := h₂.info.trans h₁.info
  parseErrs := by
    rw [h₂.parseErrs, h₁.parseErrs]
    simp [invalidCount, List.countP_append, Nat.add_assoc]
  errs := fun hok => by
    rw [h₂.errs hok, h₁.errs hok]
    simp [invalidCount, List.countP_append, Nat.add_assoc]

theorem bootstrapStep_spec {M A H K : Type} (lib : Lib M A H K) (c : Client A H K)
    (s : String) (hh : c.host.isSome = true) :
    ∃ c', bootstrapStep lib c s = some c' ∧ LoopSpec lib [s] c c' := by
  obtain ⟨conf, key, host, logger⟩ := c
  cases host with
  | none => simp at hh
  | some h =>
    cases h1 : lib.NewMultiaddr s with
    | error e =>
      refine ⟨_, by simp only [bootstrapStep, h1]; rfl, ?_⟩
      constructor <;>
        simp [resolveSeg, h1, p2p.dialed, parseErrors, invalidCount, MockLogger.Error]
    | ok m =>
      cases h2 : lib.AddrInfoFromP2pAddr m with
      | error e =>
        refine ⟨_, by simp only [bootstrapStep, h1, h2]; rfl, ?_⟩
        constructor <;>
          simp [resolveSeg, h1, h2, p2p.dialed, parseErrors, invalidCount, MockLogger.Error,
            MockLogger.Debug]
      | ok a =>
        cases h3 : (lib.Connect h.st a).2 with
        | none =>
          refine ⟨_, by simp only [bootstrapStep, h1, h2, Host.Connect, h3, Option.map_none']; rfl, ?_⟩
          constructor <;>
            simp [resolveSeg, h1, h2, p2p.dialed, parseErrors, invalidCount, MockLogger.Error,
              MockLogger.Debug]
        | some e =>
          refine ⟨_, by simp only [bootstrapStep, h1, h2, Host.Connect, h3, Option.map_some']; rfl, ?_⟩
          constructor <;>
            simp [resolveSeg, h1, h2, p2p.dialed, parseErrors, invalidCount, MockLogger.Error,
              MockLogger.Debug]
          exact ⟨h.st, a, by simp [h3]⟩

theorem bootstrapLoop_spec {M A H K : Type} (lib : Lib M A H K) (segs : List String) :
    ∀ (c : Client A H K), c.host.isSome = true →
      ∃ c', segs.foldlM (bootstrapStep lib) c = some c' ∧ LoopSpec lib segs c c' := by
  induction segs with
  | nil => intro c hh; exact ⟨c, rfl, LoopSpec.nil lib c hh⟩
  | cons s segs ih =>
    intro c hh
    obtain ⟨c₁, e₁, sp₁⟩ := bootstrapStep_spec lib c s hh
    obtain ⟨c₂, e₂, sp₂⟩ := ih c₁ sp₁.hostSome
    refine ⟨c₂, ?_, LoopSpec.append sp₁ sp₂⟩
    simp [List.foldlM, e₁, e₂]

theorem bootstrap_of_not_blank {M A H K : Type} (lib : Lib M A H K) (c : Client A H K)
    (hh : c.host.isSome = true) (hb : ¬ blank c.conf.Seeds) :
    ∃ c', bootstrap lib c = some (c', none)
      ∧ LoopSpec lib (strings.Split c.conf.Seeds ',') c c' := by
  obtain ⟨c', e, sp⟩ := bootstrapLoop_spec lib (strings.Split c.conf.Seeds ',') c hh
  refine ⟨c', ?_, sp⟩
  unfold blank at hb
  simp [bootstrap, hb, e]

theorem bootstrap_of_blank {M A H K : Type} (lib : Lib M A H K) (c : Client A H K)
    (hb : blank c.conf.Seeds) :
    bootstrap lib c = some
      ({ c with logger := c.logger.Info "no seed nodes - only listening for connections" [] },
       none) := by
  unfold blank at hb
  simp [bootstrap, hb]

end p2p

namespace p2p

theorem length_filterMap_resolveSeg {M A H K : Type} (lib : Lib M A H K) (segs : List String) :
    (segs.filterMap (resolveSeg lib)).length
      = segs.countP (fun s => (resolveSeg lib s).isSome) := by
  induction segs with
  | nil => rfl
  | cons s segs ih =>
    cases h : resolveSeg lib s <;> simp [List.filterMap_cons, List.countP_cons, h, ih]

theorem bootstrapStep_of_invalid {M A H K : Type} (lib : Lib M A H K) (c : Client A H K)
    (s : String) (hs : resolveSeg lib s = none) :
    ∃ c', bootstrapStep lib c s = some c' ∧ c'.host = c.host ∧ c'.conf = c.conf
      ∧ c'.logger.info = c.logger.info
      ∧ c'.logger.err.length = c.logger.err.length + 1 := by
  cases h1 : lib.NewMultiaddr s with
  | error e =>
    refine ⟨_, by simp only [bootstrapStep, h1]; rfl, ?_⟩
    simp [MockLogger.Error]
  | ok m =>
    cases h2 : lib.AddrInfoFromP2pAddr m with
    | error e =>
      refine ⟨_, by simp only [bootstrapStep, h1, h2]; rfl, ?_⟩
      simp [MockLogger.Error, MockLogger.Debug]
    | ok a => simp [resolveSeg, h1, h2] at hs

theorem Split_comma_append (a b : String) :
    strings.Split (a ++ "," ++ b) ',' = strings.Split a ',' ++ strings.Split b ',' :=
  strings.Split_append_sep a b ','

theorem Split_blank (seeds : String) (hb : blank seeds) :
    strings.Split seeds ',' = [seeds] :=
  strings.Split_of_not_mem seeds ',' (comma_not_mem_of_blank seeds hb)

theorem dialedBy_eq {M A H K : Type} (lib : Lib M A H K) (c : Client A H K) (st : H)
    (hh : c.host = some ⟨st, []⟩) (seeds : String) :
    dialedBy lib c seeds = some (resolveSeeds lib seeds) := by
  by_cases hb : blank seeds
  · have e := bootstrap_of_blank lib (withSeeds c seeds) hb
    rw [dialedBy, e]
    simp [resolveSeeds, hb, dialed, withSeeds, hh]
  · obtain ⟨c', e, sp⟩ := bootstrap_of_not_blank lib (withSeeds c seeds)
      (by simp [withSeeds, hh]) hb
    have hd := sp.dialed
    simp only [dialed, withSeeds, hh, List.nil_append] at hd
    rw [dialedBy, e]
    simp [resolveSeeds, hb, dialed, hd]

end p2p

namespace golib

theorem trimRightSlash_of_not_mem (l : List Char) (h : '/' ∉ l) : trimRightSlash l = l := by
  unfold trimRightSlash
  have : l.reverse.dropWhile (fun c => c == '/') = l.reverse := by
    cases hr : l.reverse with
    | nil => rfl
    | cons a t =>
      have ha : a ∈ l := by
        have : a ∈ l.reverse := by simp [hr]
        simpa using this
      have hne : a ≠ '/' := fun e => h (e ▸ ha)
      simp [List.dropWhile_cons, hne]
  rw [this, List.reverse_reverse]

theorem NewMultiaddr_of_no_slash (s : String) (h : '/' ∉ s.data) :
    ∃ err, NewMultiaddr s = .error err := by
  unfold NewMultiaddr
  rw [trimRightSlash_of_not_mem _ h, strings.splitChars_of_not_mem _ _ h]
  by_cases hs : s.data = [] <;> simp [hs]

theorem resolveSeg_of_blank (down : List String) (s : String) (hb : p2p.blank s) :
    p2p.resolveSeg (lib down) s = none := by
  have hs : '/' ∉ s.data := fun hc => p2p.not_blank_of_mem s '/' hc (by decide) hb
  obtain ⟨err, e⟩ := NewMultiaddr_of_no_slash s hs
  simp [p2p.resolveSeg, lib, e]

end golib

/-! ## The claims on the P2P client -/

namespace p2p

/-- C1: for every non-blank seed string whose comma-separated segments contain
`k` segments that do not resolve (no multiaddress, or no peer identifier) and
`m` segments that resolve to a peer address, `bootstrap` on a started client
returns without error, hands to the host exactly the `m` peer addresses of the
resolving segments in their original order, and its parsing part logs exactly
`k` errors; when no connection attempt fails these are all the errors
logged. -/
theorem C1_seed_resolution {M A H K : Type} (lib : Lib M A H K) (c : Client A H K)
    (k m : Nat) (hh : c.host.isSome = true) (hb : ¬ blank c.conf.Seeds)
    (hk : invalidCount lib (strings.Split c.conf.Seeds ',') = k)
    (hm : (strings.Split c.conf.Seeds ',').countP (fun s => (resolveSeg lib s).isSome) = m) :
    ∃ c', bootstrap lib c = some (c', none)
      ∧ dialed c' = dialed c ++ (strings.Split c.conf.Seeds ',').filterMap (resolveSeg lib)
      ∧ ((strings.Split c.conf.Seeds ',').filterMap (resolveSeg lib)).length = m
      ∧ (parseErrors c'.logger).length = (parseErrors c.logger).length + k
      ∧ ((∀ h a, (lib.Connect h a).2 = none) →
          c'.logger.err.length = c.logger.err.length + k) := by
  obtain ⟨c', e, sp⟩ := bootstrap_of_not_blank lib c hh hb
  refine ⟨c', e, sp.dialed, ?_, ?_, ?_⟩
  · rw [length_filterMap_resolveSeg, hm]
  · rw [sp.parseErrs, hk]
  · intro hok
    rw [sp.errs hok, hk]

end p2p

namespace p2p

theorem invalidCount_split_empty {M A H K : Type} (lib : Lib M A H K) (segs : List String)
    (hempty : resolveSeg lib "" = none) :
    invalidCount lib segs
      = segs.count "" + invalidCount lib (segs.filter fun s => s != "") := by
  induction segs with
  | nil => rfl
  | cons s segs ih =>
    by_cases hs : s = ""
    · subst hs
      simp only [invalidCount] at ih ⊢
      simp [List.countP_cons, hempty, ih]
      omega
    · have hs' : ("" == s) = false := by simpa using fun e => hs e.symm
      simp only [invalidCount] at ih ⊢
      simp [List.countP_cons, List.count_cons, hs, hs', List.filter_cons, ih]
      omega

theorem filterMap_filter_nonempty {M A H K : Type} (lib : Lib M A H K) (segs : List String)
    (hempty : resolveSeg lib "" = none) :
    (segs.filter fun s => s != "").filterMap (resolveSeg lib)
      = segs.filterMap (resolveSeg lib) := by
  induction segs with
  | nil => rfl
  | cons s segs ih =>
    by_cases hs : s = ""
    · subst hs
      simp [List.filter_cons, List.filterMap_cons, hempty, ih]
    · simp [List.filter_cons, hs, List.filterMap_cons, ih]

theorem bootstrapStep_count_empty {M A H K : Type} (lib : Lib M A H K) (c c' : Client A H K)
    (s err : String) (hempty : lib.NewMultiaddr "" = .error err)
    (hs : bootstrapStep lib c s = some c') :
    c'.logger.err.count (emptySegmentError err)
      = c.logger.err.count (emptySegmentError err) + (if s = "" then 1 else 0) := by
  by_cases h0 : s = ""
  · subst h0
    simp only [bootstrapStep, hempty, Option.some.injEq] at hs
    subst hs
    simp [MockLogger.Error, emptySegmentError, List.count_append]
  · cases h1 : lib.NewMultiaddr s with
    | error e =>
      simp only [bootstrapStep, h1, Option.some.injEq] at hs
      subst hs
      simp [MockLogger.Error, emptySegmentError, List.count_append, List.count_singleton, h0]
    | ok m =>
      cases h2 : lib.AddrInfoFromP2pAddr m with
      | error e =>
        simp only [bootstrapStep, h1, h2, Option.some.injEq] at hs
        subst hs
        simp [MockLogger.Error, MockLogger.Debug, emptySegmentError, List.count_append,
          List.count_singleton, h0]
      | ok a =>
        cases hhost : c.host with
        | none => simp [bootstrapStep, h1, h2, hhost] at hs
        | some h =>
          cases h3 : (lib.Connect h.st a).2 with
          | none =>
            simp only [bootstrapStep, h1, h2, hhost, Host.Connect, h3, Option.map_none',
              Option.some.injEq] at hs
            subst hs
            simp [MockLogger.Debug, h0]
          | some e =>
            simp only [bootstrapStep, h1, h2, hhost, Host.Connect, h3, Option.map_some',
              Option.some.injEq] at hs
            subst hs
            simp [MockLogger.Error, MockLogger.Debug, emptySegmentError, List.count_append,
              List.count_singleton, h0]

theorem bootstrapLoop_count_empty {M A H K : Type} (lib : Lib M A H K) (err : String)
    (hempty : lib.NewMultiaddr "" = .error err) (segs : List String) :
    ∀ (c c' : Client A H K), segs.foldlM (bootstrapStep lib) c = some c' →
      c'.logger.err.count (emptySegmentError err)
        = c.logger.err.count (emptySegmentError err) + segs.count "" := by
  induction segs with
  | nil =>
    intro c c' h
    simp only [List.foldlM, pure, Option.some.injEq] at h
    subst h
    simp
  | cons s segs ih =>
    intro c c' h
    cases h1 : bootstrapStep lib c s with
    | none => simp [List.foldlM, h1] at h
    | some c₁ =>
      have h2 : segs.foldlM (bootstrapStep lib) c₁ = some c' := by
        simpa [List.foldlM, h1] using h
      rw [ih c₁ c' h2, bootstrapStep_count_empty lib c c₁ s err hempty h1]
      by_cases h0 : s = ""
      · subst h0; simp; omega
      · have : ("" == s) = false := by simpa using fun e => h0 e.symm
        simp [h0, List.count_cons, this]

theorem bootstrap_loop_of_some {M A H K : Type} (lib : Lib M A H K) (c c' : Client A H K)
    (e : error) (hb : ¬ blank c.conf.Seeds) (h : bootstrap lib c = some (c', e)) :
    (strings.Split c.conf.Seeds ',').foldlM (bootstrapStep lib) c = some c' := by
  unfold blank at hb
  simp only [bootstrap, hb, if_false] at h
  cases hl : (strings.Split c.conf.Seeds ',').foldlM (bootstrapStep lib) c with
  | none => simp [hl] at h
  | some c₁ =>
    simp only [hl, Option.some.injEq, Prod.mk.injEq] at h
    rw [h.1]

theorem Split_leading_comma (b : String) :
    strings.Split ("," ++ b) ',' = "" :: strings.Split b ',' := by
  have : "," ++ b = "" ++ "," ++ b := by apply String.ext; simp
  rw [this, Split_comma_append]
  rfl

theorem Split_trailing_comma (a : String) :
    strings.Split (a ++ ",") ',' = strings.Split a ',' ++ [""] := by
  have : a ++ "," = a ++ "," ++ "" := by apply String.ext; simp
  rw [this, Split_comma_append]
  rfl

theorem Split_doubled_comma (a b : String) :
    strings.Split (a ++ ",," ++ b) ',' = strings.Split a ',' ++ "" :: strings.Split b ',' := by
  have : a ++ ",," ++ b = (a ++ "," ++ "") ++ "," ++ b := by apply String.ext; simp
  rw [this, Split_comma_append, Split_comma_append]
  have s0 : strings.Split "" ',' = [""] := rfl
  simp [s0]

/-- C2: an empty segment is not skipped; it costs one logged error and gives
no peer address.  Given only that the address library's `NewMultiaddr`
rejects the empty string (with error text `err`):
a leading, a trailing and a doubled delimiter each put an empty segment into
the list `strings.Split` returns; the loop iteration on an empty segment
leaves the host alone and appends exactly the one error entry for the empty
address; for every non-blank seed string `seeds`, `bootstrap` on a started
client dials exactly the addresses of the non-empty segments that resolve,
logs the empty-address error entry exactly once per empty segment, and its
parsing part logs (number of empty segments) + (number of non-empty segments
that do not resolve) errors; and for seeds `seed1`, `seed2` (entries of the
comma-separated list, so without comma) that resolve to `a1`, `a2`,
`bootstrap` on `",<seed1>,,<seed2>"` dials `[a1, a2]` with 2 parse errors,
and on `",<seed1>,<seed2>"` dials `[a1, a2]` with 1 parse error. -/
theorem C2_empty_segment_logged {M A H K : Type} (lib : Lib M A H K) (c : Client A H K)
    (seeds seed1 seed2 err : String) (a1 a2 : A) (hh : c.host.isSome = true)
    (hempty : lib.NewMultiaddr "" = .error err) (hb : ¬ blank seeds)
    (hc1 : ',' ∉ seed1.data) (hc2 : ',' ∉ seed2.data)
    (hr1 : resolveSeg lib seed1 = some a1) (hr2 : resolveSeg lib seed2 = some a2) :
    ((∀ b : String, strings.Split ("," ++ b) ',' = "" :: strings.Split b ',')
      ∧ (∀ a : String, strings.Split (a ++ ",") ',' = strings.Split a ',' ++ [""])
      ∧ (∀ a b : String, strings.Split (a ++ ",," ++ b) ','
          = strings.Split a ',' ++ "" :: strings.Split b ','))
    ∧ (∃ c', bootstrapStep lib c "" = some c' ∧ c'.host = c.host ∧ dialed c' = dialed c
        ∧ c'.logger.err = c.logger.err ++ [emptySegmentError err]
        ∧ c'.logger.err.length = c.logger.err.length + 1)
    ∧ (∃ c', bootstrap lib (withSeeds c seeds) = some (c', none)
        ∧ dialed c' = dialed c ++
            ((strings.Split seeds ',').filter fun s => s != "").filterMap (resolveSeg lib)
        ∧ c'.logger.err.count (emptySegmentError err)
            = c.logger.err.count (emptySegmentError err) + (strings.Split seeds ',').count ""
        ∧ (parseErrors c'.logger).length = (parseErrors c.logger).length
            + (strings.Split seeds ',').count ""
            + invalidCount lib ((strings.Split seeds ',').filter fun s => s != "")
        ∧ ((∀ h a, (lib.Connect h a).2 = none) →
            c'.logger.err.length = c.logger.err.length
              + (strings.Split seeds ',').count ""
              + invalidCount lib ((strings.Split seeds ',').filter fun s => s != "")))
    ∧ (∃ c', bootstrap lib (withSeeds c ("," ++ seed1 ++ ",," ++ seed2)) = some (c', none)
        ∧ dialed c' = dialed c ++ [a1, a2]
        ∧ c'.logger.err.count (emptySegmentError err)
            = c.logger.err.count (emptySegmentError err) + 2
        ∧ (parseErrors c'.logger).length = (parseErrors c.logger).length + 2
        ∧ ((∀ h a, (lib.Connect h a).2 = none) →
            c'.logger.err.length = c.logger.err.length + 2))
    ∧ (∃ c', bootstrap lib (withSeeds c ("," ++ seed1 ++ "," ++ seed2)) = some (c', none)
        ∧ dialed c' = dialed c ++ [a1, a2]
        ∧ c'.logger.err.count (emptySegmentError err)
            = c.logger.err.count (emptySegmentError err) + 1
        ∧ (parseErrors c'.logger).length = (parseErrors c.logger).length + 1
        ∧ ((∀ h a, (lib.Connect h a).2 = none) →
            c'.logger.err.length = c.logger.err.length + 1)) := by
  have hnone : resolveSeg lib "" = none := by simp [resolveSeg, hempty]
  have s1 : strings.Split seed1 ',' = [seed1] := strings.Split_of_not_mem _ _ hc1
  have s2 : strings.Split seed2 ',' = [seed2] := strings.Split_of_not_mem _ _ hc2
  have e2 : strings.Split ("," ++ seed1 ++ ",," ++ seed2) ',' = ["", seed1, "", seed2] := by
    rw [Split_doubled_comma, Split_leading_comma, s1, s2]; rfl
  have e1 : strings.Split ("," ++ seed1 ++ "," ++ seed2) ',' = ["", seed1, seed2] := by
    rw [Split_comma_append, Split_leading_comma, s1, s2]; rfl
  have n1 : seed1 ≠ "" := by rintro rfl; simp [hnone] at hr1
  have n2 : seed2 ≠ "" := by rintro rfl; simp [hnone] at hr2
  have n1' : ("" == seed1) = false := by simpa using fun e => n1 e.symm
  have n2' : ("" == seed2) = false := by simpa using fun e => n2 e.symm
  have gen : ∀ sd : String, ¬ blank sd →
      ∃ c', bootstrap lib (withSeeds c sd) = some (c', none)
        ∧ dialed c' = dialed c ++
            ((strings.Split sd ',').filter fun s => s != "").filterMap (resolveSeg lib)
        ∧ c'.logger.err.count (emptySegmentError err)
            = c.logger.err.count (emptySegmentError err) + (strings.Split sd ',').count ""
        ∧ (parseErrors c'.logger).length = (parseErrors c.logger).length
            + (strings.Split sd ',').count ""
            + invalidCount lib ((strings.Split sd ',').filter fun s => s != "")
        ∧ ((∀ h a, (lib.Connect h a).2 = none) →
            c'.logger.err.length = c.logger.err.length
              + (strings.Split sd ',').count ""
              + invalidCount lib ((strings.Split sd ',').filter fun s => s != "")) := by
    intro sd hsd
    obtain ⟨c', e, sp⟩ := bootstrap_of_not_blank lib (withSeeds c sd) hh hsd
    have hcount := bootstrapLoop_count_empty lib err hempty _ _ _
      (bootstrap_loop_of_some lib (withSeeds c sd) c' none hsd e)
    have hd := sp.dialed
    have hp := sp.parseErrs
    have he := sp.errs
    simp only [withSeeds] at hd hp he hcount
    refine ⟨c', e, ?_, hcount, ?_, ?_⟩
    · rw [filterMap_filter_nonempty lib _ hnone]; simpa [dialed] using hd
    · rw [hp, invalidCount_split_empty lib _ hnone, Nat.add_assoc]
    · intro hok
      rw [he hok, invalidCount_split_empty lib _ hnone, Nat.add_assoc]
  refine ⟨⟨Split_leading_comma, Split_trailing_comma, Split_doubled_comma⟩, ?_, gen seeds hb,
    ?_, ?_⟩
  · have hstep : bootstrapStep lib c "" = some { c with
        logger := c.logger.Error "error while parsing seed node"
                    ["address", "", "error", err] } := by
      simp only [bootstrapStep, hempty]
    refine ⟨_, hstep, rfl, ?_, ?_, ?_⟩
    · simp [dialed]
    · simp [MockLogger.Error, emptySegmentError]
    · simp [MockLogger.Error]
  · obtain ⟨c', e, hd, hcount, hp, he⟩ := gen ("," ++ seed1 ++ ",," ++ seed2)
      (not_blank_of_mem _ ',' (by simp) (by decide))
    simp only [e2] at hd hcount hp he
    refine ⟨c', e, ?_, ?_, ?_, ?_⟩
    · simpa [List.filter_cons, n1, n2, hr1, hr2] using hd
    · simpa [List.count_cons, n1, n2, n1', n2'] using hcount
    · simpa [List.count_cons, n1', n2', List.filter_cons, n1, n2, invalidCount, hr1, hr2]
        using hp
    · intro hok
      simpa [List.count_cons, n1', n2', List.filter_cons, n1, n2, invalidCount, hr1, hr2]
        using he hok
  · obtain ⟨c', e, hd, hcount, hp, he⟩ := gen ("," ++ seed1 ++ "," ++ seed2)
      (not_blank_of_mem _ ',' (by simp) (by decide))
    simp only [e1] at hd hcount hp he
    refine ⟨c', e, ?_, ?_, ?_, ?_⟩
    · simpa [List.filter_cons, n1, n2, hr1, hr2] using hd
    · simpa [List.count_cons, n1, n2, n1', n2'] using hcount
    · simpa [List.count_cons, n1', n2', List.filter_cons, n1, n2, invalidCount, hr1, hr2]
        using hp
    · intro hok
      simpa [List.count_cons, n1', n2', List.filter_cons, n1, n2, invalidCount, hr1, hr2]
        using he hok

/-- C3, as the code has it: empty segments are not skipped.  A blank seed
string yields no connection and no error.  For a non-blank seed string, given
that the address library rejects the empty string, the peer addresses dialed
are those of the non-empty segments that resolve, and the parsing part logs
one error for every empty segment in addition to one for every non-empty
segment that does not resolve. -/
theorem C3_empty_segments_counted {M A H K : Type} (lib : Lib M A H K) (c : Client A H K)
    (hh : c.host.isSome = true) (hempty : resolveSeg lib "" = none) :
    ∃ c', bootstrap lib c = some (c', none)
      ∧ (blank c.conf.Seeds → dialed c' = dialed c ∧ c'.logger.err = c.logger.err)
      ∧ (¬ blank c.conf.Seeds →
          dialed c' = dialed c ++
            ((strings.Split c.conf.Seeds ',').filter fun s => s != "").filterMap (resolveSeg lib)
          ∧ (parseErrors c'.logger).length = (parseErrors c.logger).length
              + (strings.Split c.conf.Seeds ',').count ""
              + invalidCount lib ((strings.Split c.conf.Seeds ',').filter fun s => s != "")) := by
  by_cases hb : blank c.conf.Seeds
  · refine ⟨_, bootstrap_of_blank lib c hb, ?_, fun h => absurd hb h⟩
    intro _
    simp [dialed, MockLogger.Info]
  · obtain ⟨c', e, sp⟩ := bootstrap_of_not_blank lib c hh hb
    refine ⟨c', e, fun h => absurd h hb, fun _ => ⟨?_, ?_⟩⟩
    · rw [filterMap_filter_nonempty lib _ hempty]; exact sp.dialed
    · rw [sp.parseErrs, invalidCount_split_empty lib _ hempty, Nat.add_assoc]

/-- C4: seed resolution distributes over the delimiter.  Given that the
address library resolves no blank string to a peer address, for all seed
strings `a` and `b` the `Connect` calls `bootstrap` makes for `a + "," + b`,
and likewise for `a + ",," + b`, are those it makes for `a` followed by those
it makes for `b`. -/
theorem C4_resolution_distributes {M A H K : Type} (lib : Lib M A H K) (c : Client A H K)
    (st : H) (a b : String) (hh : c.host = some ⟨st, []⟩)
    (hblank : ∀ s, blank s → resolveSeg lib s = none) :
    ∃ la lb, dialedBy lib c a = some la ∧ dialedBy lib c b = some lb
      ∧ dialedBy lib c (a ++ "," ++ b) = some (la ++ lb)
      ∧ dialedBy lib c (a ++ ",," ++ b) = some (la ++ lb) := by
  have key : ∀ s, (strings.Split s ',').filterMap (resolveSeg lib) = resolveSeeds lib s := by
    intro s
    by_cases hs : blank s
    · simp [resolveSeeds, hs, Split_blank s hs, List.filterMap_cons, hblank s hs]
    · simp [resolveSeeds, hs]
  have hempty : resolveSeg lib "" = none := hblank "" (by decide)
  have e2 : a ++ ",," ++ b = (a ++ "," ++ "") ++ "," ++ b := by
    apply String.ext; simp
  have s0 : strings.Split "" ',' = [""] := rfl
  refine ⟨resolveSeeds lib a, resolveSeeds lib b, dialedBy_eq lib c st hh a,
    dialedBy_eq lib c st hh b, ?_, ?_⟩
  · rw [dialedBy_eq lib c st hh]
    have hnb : ¬ blank (a ++ "," ++ b) := not_blank_append_comma a b
    simp only [resolveSeeds, hnb, if_false, Split_comma_append, List.filterMap_append]
    rw [key a, key b]
    by_cases ha : blank a <;> by_cases hb : blank b <;> simp [resolveSeeds, ha, hb]
  · rw [dialedBy_eq lib c st hh, e2]
    have hnb : ¬ blank ((a ++ "," ++ "") ++ "," ++ b) := not_blank_append_comma _ b
    simp only [resolveSeeds, hnb, if_false, Split_comma_append, List.filterMap_append, s0]
    rw [key a, key b]
    by_cases ha : blank a <;> by_cases hb : blank b <;>
      simp [resolveSeeds, ha, hb, List.filterMap_cons, hempty]

theorem bootstrap_dials_resolved {M A H K : Type} (lib : Lib M A H K) (c : Client A H K)
    (hh : c.host.isSome = true) :
    ∃ c', bootstrap lib c = some (c', none)
      ∧ dialed c' = dialed c ++ resolveSeeds lib c.conf.Seeds := by
  by_cases hb : blank c.conf.Seeds
  · refine ⟨_, bootstrap_of_blank lib c hb, ?_⟩
    simp [dialed, resolveSeeds, hb]
  · obtain ⟨c', e, sp⟩ := bootstrap_of_not_blank lib c hh hb
    exact ⟨c', e, by simpa [resolveSeeds, hb] using sp.dialed⟩

/-- C5: for every seed string and every behaviour of the host's `Connect`
(success, refusal, timeout, in any combination), `bootstrap` on a started
client returns without error and calls `Connect` exactly once for each
resolved seed address, in input order: the record of calls grows by exactly
the list of resolved addresses, whatever fails on the way. -/
theorem C5_each_seed_dialed_once {M A H K : Type} (lib : Lib M A H K) (c : Client A H K)
    (hh : c.host.isSome = true) :
    ∃ c', bootstrap lib c = some (c', none)
      ∧ dialed c' = dialed c ++ resolveSeeds lib c.conf.Seeds :=
  bootstrap_dials_resolved lib c hh

/-- C6: for every client whose seed string is empty or white space only,
with or without host, `bootstrap` returns success and changes nothing but the
info log, to which it appends the one entry "no seed nodes - only listening
for connections": no connection is attempted and no error is logged. -/
theorem C6_blank_seeds_listen_only {M A H K : Type} (lib : Lib M A H K) (c : Client A H K)
    (hb : blank c.conf.Seeds) :
    ∃ c', bootstrap lib c = some (c', none)
      ∧ c'.host = c.host ∧ dialed c' = dialed c
      ∧ c'.logger.err = c.logger.err ∧ c'.logger.debug = c.logger.debug
      ∧ c'.logger.info
          = c.logger.info ++ [⟨"no seed nodes - only listening for connections", []⟩] := by
  refine ⟨_, bootstrap_of_blank lib c hb, ?_⟩
  simp [dialed, MockLogger.Info]

/-- C7: `Start` always returns, and it returns an error if and only if the
listen address does not parse or the host cannot be opened; the error is then
the one of that step.  The seed string, the parsing of the seeds and the
outcomes of the connection attempts have no influence on it. -/
theorem C7_start_error_iff_listen_fails {M A H K : Type} (lib : Lib M A H K)
    (c : Client A H K) :
    ∃ c' e, Start lib c = some (c', e)
      ∧ (e.isSome = true ↔
          ((∃ msg, lib.NewMultiaddr c.conf.ListenAddress = .error msg)
            ∨ ∃ maddr msg, lib.NewMultiaddr c.conf.ListenAddress = .ok maddr
                ∧ lib.New maddr c.privKey = .error msg))
      ∧ e = (match lib.NewMultiaddr c.conf.ListenAddress with
            | .error msg => some (GoError.lib msg)
            | .ok maddr =>
              match lib.New maddr c.privKey with
              | .error msg => some (GoError.lib msg)
              | .ok _ => none) := by
  cases h1 : lib.NewMultiaddr c.conf.ListenAddress with
  | error msg =>
    refine ⟨_, some (GoError.lib msg), by simp only [Start, listen, h1]; rfl, ?_⟩
    simp
  | ok maddr =>
    cases h2 : lib.New maddr c.privKey with
    | error msg =>
      refine ⟨_, some (GoError.lib msg), by simp only [Start, listen, h1, h2]; rfl, ?_⟩
      simp [h2]
    | ok host =>
      obtain ⟨c', e, -⟩ := bootstrap_dials_resolved lib
        { c with
          logger := (lib.Addrs host).foldl
            (fun l a => l.Info "listening on" ["address", lib.MaddrString a, "ID", lib.ID host])
            (c.logger.Debug "Starting P2P client" []),
          host := some ⟨host, []⟩ } rfl
      refine ⟨c', none, ?_, ?_⟩
      · simp only [Start, listen, h1, h2]
        rw [e]
      · simp [h2]

/-- C8: `NewClient` returns an error if and only if the private key is nil,
and then it returns `ErrNoPrivKey` and no client; for every configuration and
logger, with a key `k` it returns a client and no error, and that client has
no host. -/
theorem C8_newclient_fails_iff_no_key {A H K : Type} (conf : P2PConfig)
    (privKey : Option K) (logger : MockLogger) (k : K) :
    ((NewClient conf privKey logger : Option (Client A H K) × error).2.isSome = true
        ↔ privKey = none)
    ∧ ((NewClient conf privKey logger : Option (Client A H K) × error)
          = (none, some GoError.ErrNoPrivKey) ↔ privKey = none)
    ∧ (∃ c : Client A H K, NewClient conf (some k) logger = (some c, none)
          ∧ c.host = none ∧ c.privKey = some k ∧ c.logger = logger) := by
  cases privKey with
  | none => simp [NewClient]
  | some k => simp [NewClient]

/-- C9: for every configuration and every key, the client `NewClient` returns
has the listen address "/ip4/127.0.0.1/tcp/7676" when the configured one is
the empty string and the configured one otherwise, and its seed string is the
configured seed string. -/
theorem C9_default_listen_address {A H K : Type} (conf : P2PConfig) (k : K)
    (logger : MockLogger) :
    ∃ c : Client A H K, NewClient conf (some k) logger = (some c, none)
      ∧ c.conf.ListenAddress
          = (if conf.ListenAddress = "" then "/ip4/127.0.0.1/tcp/7676" else conf.ListenAddress)
      ∧ c.conf.Seeds = conf.Seeds := by
  refine ⟨_, rfl, ?_, ?_⟩
  · by_cases h : conf.ListenAddress = "" <;> simp [h, defaultListenAddress]
  · by_cases h : conf.ListenAddress = "" <;> simp [h]

end p2p

namespace store

theorem multierr_Append_eq_none (l r : error) :
    multierr.Append l r = none ↔ l = none ∧ r = none := by
  cases l <;> cases r <;> simp [multierr.Append]

theorem copy32_of_length (hash : Bytes) (h : hash.length = 32) : copy32 hash = hash := by
  simp [copy32, List.take_of_length_le (Nat.le_of_eq h), h]

/-- C10: for every block store and block `b`, given a key-value store that
returns for a key the value last set for it and leaves other keys alone,
a decoder that inverts the block encoder, and 32-byte hashes: if
`SaveBlock(b)` returns no error, then on the resulting store
`LoadBlock(b.Header.Height)` and `LoadBlockByHash(getHash(b))` both return
`b` without error, and `Height()` is the maximum of the previous height and
`b.Header.Height`. -/
theorem C10_save_then_load {DB B Hd : Type} (kv : KVStore DB) (codec : Codec B Hd)
    (bs bs' : DefaultBlockStore DB) (b : B)
    (hget : ∀ db k v db', kv.Set db k v = (db', none) → kv.Get db' k = (v, none))
    (hother : ∀ db k v db' k', kv.Set db k v = (db', none) → k' ≠ k →
      kv.Get db' k' = kv.Get db k')
    (hdec : ∀ blk bytes, codec.EncodeBlock blk = .ok bytes → codec.DecodeBlock bytes = .ok blk)
    (hlen : ∀ bytes, (codec.Sum256 bytes).length = 32)
    (hsave : SaveBlock kv codec bs b = (bs', none)) :
    LoadBlock kv codec bs' (codec.Height (codec.Header b)) = (some b, none)
      ∧ LoadBlockByHash kv codec bs' (getHash codec b).1 = (some b, none)
      ∧ Height bs' = max (Height bs) (codec.Height (codec.Header b)) := by
  unfold SaveBlock at hsave
  cases hh : codec.EncodeHeader (codec.Header b) with
  | error err => simp [getHash, hh] at hsave
  | ok header =>
    cases hv : codec.EncodeBlock b with
    | error err => simp [getHash, hh, hv] at hsave
    | ok value =>
      simp only [getHash, hh, hv, Prod.mk.injEq, multierr_Append_eq_none, true_and] at hsave
      obtain ⟨hbs, h₁, h₂⟩ := hsave
      have e₁ : kv.Set bs.db (blockPreffix ++ codec.Sum256 header) value
          = ((kv.Set bs.db (blockPreffix ++ codec.Sum256 header) value).1, none) := by
        rw [← h₁]
      have e₂ : kv.Set (kv.Set bs.db (blockPreffix ++ codec.Sum256 header) value).1
            (indexPreffix ++ PutUint64 (codec.Height (codec.Header b))) (codec.Sum256 header)
          = ((kv.Set (kv.Set bs.db (blockPreffix ++ codec.Sum256 header) value).1
            (indexPreffix ++ PutUint64 (codec.Height (codec.Header b)))
            (codec.Sum256 header)).1, none) := by
        rw [← h₂]
      have hne : blockPreffix ++ codec.Sum256 header
          ≠ indexPreffix ++ PutUint64 (codec.Height (codec.Header b)) := by
        simp [blockPreffix, indexPreffix]
      have gi := hget _ _ _ _ e₂
      have gk := (hother _ _ _ _ _ e₂ hne).trans (hget _ _ _ _ e₁)
      have hdb : bs'.db = (kv.Set (kv.Set bs.db (blockPreffix ++ codec.Sum256 header) value).1
            (indexPreffix ++ PutUint64 (codec.Height (codec.Header b)))
            (codec.Sum256 header)).1 := by
        rw [← hbs]; split <;> rfl
      have hload : LoadBlockByHash kv codec bs' (codec.Sum256 header) = (some b, none) := by
        simp only [LoadBlockByHash, hdb, gk, hdec b value hv]
      refine ⟨?_, ?_, ?_⟩
      · simp only [LoadBlock, hdb, gi]
        rw [copy32_of_length _ (hlen header)]
        simpa only [hdb] using hload
      · simpa [getHash, hh] using hload
      · rw [← hbs]
        simp only [Height]
        split
        · rename_i hgt; simp only; omega
        · rename_i hgt; simp only; omega

end store

/-! ## The claims at concrete inputs -/

set_option maxRecDepth 100000

namespace store

theorem memKV_get_set (db : MemDB) (k v : Bytes) (db' : MemDB)
    (h : memKV.Set db k v = (db', none)) : memKV.Get db' k = (v, none) := by
  simp only [memKV, Prod.mk.injEq, and_true] at h
  subst h
  simp [memKV, List.lookup_cons]

theorem memKV_get_other (db : MemDB) (k v : Bytes) (db' : MemDB) (k' : Bytes)
    (h : memKV.Set db k v = (db', none)) (hne : k' ≠ k) :
    memKV.Get db' k' = memKV.Get db k' := by
  simp only [memKV, Prod.mk.injEq, and_true] at h
  subst h
  have : (k' == k) = false := by simpa using hne
  simp [memKV, List.lookup_cons, this]

theorem toyCodec_decode (blk : ToyBlock) (bytes : Bytes)
    (h : toyCodec.EncodeBlock blk = .ok bytes) : toyCodec.DecodeBlock bytes = .ok blk := by
  simp only [toyCodec, Except.ok.injEq] at h
  subst h
  rfl

theorem toyCodec_hash_length (bytes : Bytes) : (toyCodec.Sum256 bytes).length = 32 := by
  simp [toyCodec]

end store

/-- C1 on the input "invalid id, two correct" of `TestSeedStringParsing`:
one segment without peer identifier, two valid seeds. -/
theorem C1_seed_resolution_witness :
    (golib.client golib.seeds312).host.isSome = true
    ∧ ¬ p2p.blank (golib.client golib.seeds312).conf.Seeds
    ∧ p2p.invalidCount (golib.lib [])
        (strings.Split (golib.client golib.seeds312).conf.Seeds ',') = 1
    ∧ (strings.Split (golib.client golib.seeds312).conf.Seeds ',').countP
        (fun s => (p2p.resolveSeg (golib.lib []) s).isSome) = 2
    ∧ (strings.Split (golib.client golib.seeds312).conf.Seeds ',').filterMap
        (p2p.resolveSeg (golib.lib [])) = [golib.seed1AI, golib.seed2AI]
    ∧ (p2p.bootstrap (golib.lib []) (golib.client golib.seeds312)).map
        (fun r => (p2p.dialed r.1, r.1.logger.err.length, r.2))
        = some ([golib.seed1AI, golib.seed2AI], 1, none)
    ∧ ∃ c', p2p.bootstrap (golib.lib []) (golib.client golib.seeds312) = some (c', none)
      ∧ p2p.dialed c' = p2p.dialed (golib.client golib.seeds312) ++
          (strings.Split (golib.client golib.seeds312).conf.Seeds ',').filterMap
            (p2p.resolveSeg (golib.lib []))
      ∧ ((strings.Split (golib.client golib.seeds312).conf.Seeds ',').filterMap
            (p2p.resolveSeg (golib.lib []))).length = 2
      ∧ (p2p.parseErrors c'.logger).length
          = (p2p.parseErrors (golib.client golib.seeds312).logger).length + 1
      ∧ ((∀ h a, ((golib.lib []).Connect h a).2 = none) →
          c'.logger.err.length = (golib.client golib.seeds312).logger.err.length + 1) :=
  ⟨by decide, by decide, by decide, by decide, by decide, by decide,
   p2p.C1_seed_resolution (golib.lib []) (golib.client golib.seeds312) 1 2
     (by decide) (by decide) (by decide) (by decide)⟩

/-- C2 on the seed string `",<seed1>,"` (a leading and a trailing delimiter)
and on the two seeds of `TestSeedStringParsing`. -/
theorem C2_empty_segment_logged_witness :
    (golib.client "").host.isSome = true
    ∧ (golib.lib []).NewMultiaddr "" = .error "empty multiaddr"
    ∧ ¬ p2p.blank golib.seedsAround
    ∧ ',' ∉ golib.seed1.data ∧ ',' ∉ golib.seed2.data
    ∧ p2p.resolveSeg (golib.lib []) golib.seed1 = some golib.seed1AI
    ∧ p2p.resolveSeg (golib.lib []) golib.seed2 = some golib.seed2AI
    ∧ (p2p.bootstrap (golib.lib []) (p2p.withSeeds (golib.client "") golib.seedsAround)).map
        (fun r => (p2p.dialed r.1, r.1.logger.err.count (p2p.emptySegmentError "empty multiaddr"),
          r.1.logger.err.length))
        = some ([golib.seed1AI], 2, 2)
    ∧ (((∀ b : String, strings.Split ("," ++ b) ',' = "" :: strings.Split b ',')
        ∧ (∀ a : String, strings.Split (a ++ ",") ',' = strings.Split a ',' ++ [""])
        ∧ (∀ a b : String, strings.Split (a ++ ",," ++ b) ','
            = strings.Split a ',' ++ "" :: strings.Split b ','))
      ∧ (∃ c', p2p.bootstrapStep (golib.lib []) (golib.client "") "" = some c' ∧ c'.host = (golib.client "").host
          ∧ p2p.dialed c' = p2p.dialed (golib.client "")
          ∧ c'.logger.err = (golib.client "").logger.err ++ [p2p.emptySegmentError "empty multiaddr"]
          ∧ c'.logger.err.length = (golib.client "").logger.err.length + 1)
      ∧ (∃ c', p2p.bootstrap (golib.lib []) (p2p.withSeeds (golib.client "") golib.seedsAround) = some (c', none)
          ∧ p2p.dialed c' = p2p.dialed (golib.client "") ++
              ((strings.Split golib.seedsAround ',').filter fun s => s != "").filterMap
                (p2p.resolveSeg (golib.lib []))
          ∧ c'.logger.err.count (p2p.emptySegmentError "empty multiaddr")
              = (golib.client "").logger.err.count (p2p.emptySegmentError "empty multiaddr")
                + (strings.Split golib.seedsAround ',').count ""
          ∧ (p2p.parseErrors c'.logger).length = (p2p.parseErrors (golib.client "").logger).length
              + (strings.Split golib.seedsAround ',').count ""
              + p2p.invalidCount (golib.lib []) ((strings.Split golib.seedsAround ',').filter fun s => s != "")
          ∧ ((∀ h a, ((golib.lib []).Connect h a).2 = none) →
              c'.logger.err.length = (golib.client "").logger.err.length
                + (strings.Split golib.seedsAround ',').count ""
                + p2p.invalidCount (golib.lib [])
                    ((strings.Split golib.seedsAround ',').filter fun s => s != "")))
      ∧ (∃ c', p2p.bootstrap (golib.lib [])
            (p2p.withSeeds (golib.client "") ("," ++ golib.seed1 ++ ",," ++ golib.seed2)) = some (c', none)
          ∧ p2p.dialed c' = p2p.dialed (golib.client "") ++ [golib.seed1AI, golib.seed2AI]
          ∧ c'.logger.err.count (p2p.emptySegmentError "empty multiaddr")
              = (golib.client "").logger.err.count (p2p.emptySegmentError "empty multiaddr") + 2
          ∧ (p2p.parseErrors c'.logger).length = (p2p.parseErrors (golib.client "").logger).length + 2
          ∧ ((∀ h a, ((golib.lib []).Connect h a).2 = none) →
              c'.logger.err.length = (golib.client "").logger.err.length + 2))
      ∧ (∃ c', p2p.bootstrap (golib.lib [])
            (p2p.withSeeds (golib.client "") ("," ++ golib.seed1 ++ "," ++ golib.seed2)) = some (c', none)
          ∧ p2p.dialed c' = p2p.dialed (golib.client "") ++ [golib.seed1AI, golib.seed2AI]
          ∧ c'.logger.err.count (p2p.emptySegmentError "empty multiaddr")
              = (golib.client "").logger.err.count (p2p.emptySegmentError "empty multiaddr") + 1
          ∧ (p2p.parseErrors c'.logger).length = (p2p.parseErrors (golib.client "").logger).length + 1
          ∧ ((∀ h a, ((golib.lib []).Connect h a).2 = none) →
              c'.logger.err.length = (golib.client "").logger.err.length + 1))) :=
  ⟨by decide, rfl, by decide, by decide, by decide, by decide, by decide, by decide,
   p2p.C2_empty_segment_logged (golib.lib []) (golib.client "") golib.seedsAround
     golib.seed1 golib.seed2 "empty multiaddr" golib.seed1AI golib.seed2AI
     (by decide) rfl (by decide) (by decide) (by decide) (by decide) (by decide)⟩

/-- C3 fails on the code: on the seed string `",<seed1>,"`, whose only
non-empty segment is valid, `bootstrap` connects to that seed and logs two
errors, one for each of the two empty segments, where the claim has none. -/
theorem C3_counterexample :
    (p2p.bootstrap (golib.lib []) (golib.client golib.seedsAround)).map
        (fun r => (p2p.dialed r.1, r.1.logger.err))
      = some ([golib.seed1AI],
          [⟨"error while parsing seed node", ["address", "", "error", "empty multiaddr"]⟩,
           ⟨"error while parsing seed node", ["address", "", "error", "empty multiaddr"]⟩])
    ∧ strings.Split golib.seedsAround ',' = ["", golib.seed1, ""] := by
  decide

/-- C3 as amended, on the seed string `",<seed1>,"`. -/
theorem C3_empty_segments_counted_witness :
    (golib.client golib.seedsAround).host.isSome = true
    ∧ p2p.resolveSeg (golib.lib []) "" = none
    ∧ ∃ c', p2p.bootstrap (golib.lib []) (golib.client golib.seedsAround) = some (c', none)
      ∧ (p2p.blank (golib.client golib.seedsAround).conf.Seeds →
          p2p.dialed c' = p2p.dialed (golib.client golib.seedsAround)
            ∧ c'.logger.err = (golib.client golib.seedsAround).logger.err)
      ∧ (¬ p2p.blank (golib.client golib.seedsAround).conf.Seeds →
          p2p.dialed c' = p2p.dialed (golib.client golib.seedsAround) ++
            ((strings.Split (golib.client golib.seedsAround).conf.Seeds ',').filter
              fun s => s != "").filterMap (p2p.resolveSeg (golib.lib []))
          ∧ (p2p.parseErrors c'.logger).length
              = (p2p.parseErrors (golib.client golib.seedsAround).logger).length
                + (strings.Split (golib.client golib.seedsAround).conf.Seeds ',').count ""
                + p2p.invalidCount (golib.lib [])
                    ((strings.Split (golib.client golib.seedsAround).conf.Seeds ',').filter
                      fun s => s != "")) :=
  ⟨by decide, by decide,
   p2p.C3_empty_segments_counted (golib.lib []) (golib.client golib.seedsAround)
     (by decide) (by decide)⟩

/-- C4 on the two seeds of `TestSeedStringParsing`, with the reference
libraries, which resolve no blank string. -/
theorem C4_resolution_distributes_witness :
    (golib.client "").host = some ⟨[], []⟩
    ∧ (∀ s, p2p.blank s → p2p.resolveSeg (golib.lib []) s = none)
    ∧ ∃ la lb, p2p.dialedBy (golib.lib []) (golib.client "") golib.seed1 = some la
      ∧ p2p.dialedBy (golib.lib []) (golib.client "") golib.seed2 = some lb
      ∧ p2p.dialedBy (golib.lib []) (golib.client "") (golib.seed1 ++ "," ++ golib.seed2)
          = some (la ++ lb)
      ∧ p2p.dialedBy (golib.lib []) (golib.client "") (golib.seed1 ++ ",," ++ golib.seed2)
          = some (la ++ lb) :=
  ⟨rfl, golib.resolveSeg_of_blank [],
   p2p.C4_resolution_distributes (golib.lib []) (golib.client "") [] golib.seed1 golib.seed2
     rfl (golib.resolveSeg_of_blank [])⟩

/-- C5 with a host on which the connection to the first seed is refused: both
resolved seeds are dialed all the same, once each and in order. -/
theorem C5_each_seed_dialed_once_witness :
    (golib.client golib.seeds312).host.isSome = true
    ∧ p2p.resolveSeeds (golib.lib [golib.seed1AI.ID]) golib.seeds312
        = [golib.seed1AI, golib.seed2AI]
    ∧ ∃ c', p2p.bootstrap (golib.lib [golib.seed1AI.ID]) (golib.client golib.seeds312)
          = some (c', none)
      ∧ p2p.dialed c' = p2p.dialed (golib.client golib.seeds312) ++
          p2p.resolveSeeds (golib.lib [golib.seed1AI.ID])
            (golib.client golib.seeds312).conf.Seeds :=
  ⟨by decide, by decide,
   p2p.C5_each_seed_dialed_once (golib.lib [golib.seed1AI.ID]) (golib.client golib.seeds312)
     (by decide)⟩

/-- C6 on a seed string of a space and a tab. -/
theorem C6_blank_seeds_listen_only_witness :
    p2p.blank (golib.client " \t").conf.Seeds
    ∧ ∃ c', p2p.bootstrap (golib.lib []) (golib.client " \t") = some (c', none)
      ∧ c'.host = (golib.client " \t").host
      ∧ p2p.dialed c' = p2p.dialed (golib.client " \t")
      ∧ c'.logger.err = (golib.client " \t").logger.err
      ∧ c'.logger.debug = (golib.client " \t").logger.debug
      ∧ c'.logger.info = (golib.client " \t").logger.info
          ++ [⟨"no seed nodes - only listening for connections", []⟩] :=
  ⟨by decide, p2p.C6_blank_seeds_listen_only (golib.lib []) (golib.client " \t") (by decide)⟩

/-- C10 on the in-memory store: a block of height 7 saved into an empty store
of height 3. -/
theorem C10_save_then_load_witness :
    store.SaveBlock store.memKV store.toyCodec ⟨[], 3⟩ (7, [10, 20])
        = (⟨[(2 :: store.PutUint64 7, store.toyCodec.Sum256 [7]),
             (1 :: store.toyCodec.Sum256 [7], [7, 10, 20])], 7⟩, none)
    ∧ store.LoadBlock store.memKV store.toyCodec
          ⟨[(2 :: store.PutUint64 7, store.toyCodec.Sum256 [7]),
            (1 :: store.toyCodec.Sum256 [7], [7, 10, 20])], 7⟩
          (store.toyCodec.Height (store.toyCodec.Header (7, [10, 20])))
        = (some (7, [10, 20]), none)
    ∧ store.LoadBlockByHash store.memKV store.toyCodec
          ⟨[(2 :: store.PutUint64 7, store.toyCodec.Sum256 [7]),
            (1 :: store.toyCodec.Sum256 [7], [7, 10, 20])], 7⟩
          (store.getHash store.toyCodec (7, [10, 20])).1
        = (some (7, [10, 20]), none)
    ∧ store.Height (⟨[(2 :: store.PutUint64 7, store.toyCodec.Sum256 [7]),
            (1 :: store.toyCodec.Sum256 [7], [7, 10, 20])], 7⟩ :
            store.DefaultBlockStore store.MemDB)
        = max (store.Height (⟨[], 3⟩ : store.DefaultBlockStore store.MemDB))
            (store.toyCodec.Height (store.toyCodec.Header (7, [10, 20]))) :=
  ⟨rfl, store.C10_save_then_load store.memKV store.toyCodec ⟨[], 3⟩ _ (7, [10, 20])
     store.memKV_get_set store.memKV_get_other store.toyCodec_decode
     store.toyCodec_hash_length rfl⟩

